import Mathlib

/-!
Verification of the PDP (product detail page) initializer script
(src/scripts/initializers/pdp.js).

The script is shallowly embedded: JS objects become Lean structures with
Option fields for possibly-absent values, JS arrays become lists, the
fallible browser URL constructor becomes an Option-returning parser over
lists of characters, and the side effects of the page (error redirect,
framework mount, eager image render) become explicit outcome values.
-/

/-! ## Vimeo URL normalizer (toVimeoEmbedUrl) -/

/-- A character allowed in a URL scheme: letters, digits, plus, minus, dot. -/
def isSchemeChar (c : Char) : Bool :=
  c.isAlphanum || c == '+' || c == '-' || c == '.'

/-- A character that terminates the host portion of a URL. -/
def isHostEnd (c : Char) : Bool :=
  c == '/' || c == '?' || c == '#'

/-- A character that terminates the path portion of a URL. -/
def isPathEnd (c : Char) : Bool :=
  c == '?' || c == '#'

/-- Longest prefix satisfying the predicate, paired with the rest. -/
def spanP (p : Char → Bool) : List Char → List Char × List Char
  | [] => ([], [])
  | c :: cs =>
    if p c then (c :: (spanP p cs).1, (spanP p cs).2)
    else ([], c :: cs)

/-- Result of parsing an absolute URL: scheme, host, pathname and the
search/fragment tail, all as character lists. -/
structure URLRec where
  scheme : List Char
  host : List Char
  pathname : List Char
  search : List Char
deriving DecidableEq, Repr

/-- Model of the browser URL constructor used by the script, specialized to
the pieces the script reads. An absolute URL is a scheme (first character
alphabetic) followed by a colon; with a double slash the authority runs to
the first slash, question mark or hash and the pathname follows it (an
empty pathname normalizes to a single slash, as the browser does); without
a double slash the remainder up to a question mark or hash is an opaque
pathname. A string without a valid scheme-colon prefix fails to parse,
which models the constructor throwing. -/
def parseURL (cs : List Char) : Option URLRec :=
  let sch := spanP isSchemeChar cs
  match sch.1, sch.2 with
  | c0 :: _, ':' :: afterColon =>
    if c0.isAlpha then
      match afterColon with
      | '/' :: '/' :: afterSlashes =>
        let hp := spanP (fun c => !isHostEnd c) afterSlashes
        if hp.1.isEmpty then none
        else
          let ps := spanP (fun c => !isPathEnd c) hp.2
          some ⟨sch.1, hp.1, if ps.1.isEmpty then ['/'] else ps.1, ps.2⟩
      | _ =>
        let ps := spanP (fun c => !isPathEnd c) afterColon
        some ⟨sch.1, [], ps.1, ps.2⟩
    else none
  | _, _ => none

/-- Split into the chunk before the first separator and the list of later
chunks; `splitChar` below assembles them like the JS string split method. -/
def splitCharNE (sep : Char) : List Char → List Char × List (List Char)
  | [] => ([], [])
  | c :: cs =>
    if c == sep then ([], (splitCharNE sep cs).1 :: (splitCharNE sep cs).2)
    else (c :: (splitCharNE sep cs).1, (splitCharNE sep cs).2)

/-- The JS split method on a single separator character. -/
def splitChar (sep : Char) (l : List Char) : List (List Char) :=
  (splitCharNE sep l).1 :: (splitCharNE sep l).2

/-- The Vimeo URL normalizer of the script: parse the URL, take the first
non-empty path segment, and if it is a non-empty run of digits return the
canonical player URL built from it; on any other outcome (parse failure
included, which the script catches) return the input unchanged. -/
def toVimeoEmbedUrl (url : String) : String :=
  match parseURL url.toList with
  | some urlObj =>
    match ((splitChar '/' urlObj.pathname).filter (fun s => !s.isEmpty)).head? with
    | some videoId =>
      if !videoId.isEmpty && videoId.all Char.isDigit then
        String.mk ("https://player.vimeo.com/video/".toList ++ videoId)
      else url
    | none => url
  | none => url

/-! ## Product data model -/

/-- JS boolean-or on a possibly missing string: the default replaces a
missing or empty (falsy) value. -/
def jsOrDefault (s : Option String) (d : String) : String :=
  match s with
  | some t => if t = "" then d else t
  | none => d

/-- Preview asset of a video as requested by the GraphQL query. -/
structure Preview where
  label : Option String
  roles : Option (List String)
  url : String
deriving DecidableEq, Repr

/-- A product video record: url, title and optional preview asset. -/
structure Video where
  url : String
  title : Option String
  preview : Option Preview
deriving DecidableEq, Repr

/-- A gallery image record; video-derived entries set the isVideo marker,
original images keep whatever fields they had. -/
structure ImageRec where
  url : String
  label : Option String
  width : Option Int
  height : Option Int
  isVideo : Option Bool
deriving DecidableEq, Repr

/-- The product record fetched by SKU. Fields the script never touches are
summarized by `otherFields`, standing for the remaining properties copied
by the object spread. -/
structure Product where
  sku : String
  images : Option (List ImageRec)
  videos : Option (List Video)
  optionUIDs : Option (List String)
  otherFields : List (String × String)
deriving DecidableEq, Repr

/-- The video-as-image projection of the transformer: normalized embed URL,
title with the default fallback, fixed 640 by 360 size, isVideo marker. -/
def videoAsImage (v : Video) : ImageRec :=
  { url := toVimeoEmbedUrl v.url
    label := some (jsOrDefault v.title "Product Video")
    width := some 640
    height := some 360
    isVideo := some true }

/-- The per-video rewrite of the videos field: normalized URL, title kept,
preview reduced to its URL alone. -/
def transformVideoEntry (v : Video) : Video :=
  { url := toVimeoEmbedUrl v.url
    title := v.title
    preview := v.preview.map (fun p => { label := none, roles := none, url := p.url }) }

/-- The ProductDetails transformer of the script: null or video-less data
passes through unchanged; otherwise the videos are rewritten, and the
images sequence becomes the video-derived entries followed by the original
images (an absent images field counts as empty). -/
def transformer (rawData : Option Product) : Option Product :=
  match rawData with
  | none => none
  | some p =>
    match p.videos with
    | none => some p
    | some [] => some p
    | some vs =>
      some { p with
        videos := some (vs.map transformVideoEntry)
        images := some (vs.map videoAsImage ++ p.images.getD []) }

/-! ## Product fetcher (fetchProductDataWithVideos) -/

/-- The data object of the GraphQL response. -/
structure GqlData where
  products : Option (List Product)
deriving DecidableEq, Repr

/-- The GraphQL response envelope. -/
structure GqlResponse where
  data : Option GqlData
deriving DecidableEq, Repr

/-- The options bag of the fetcher, optionally carrying option UIDs. -/
structure FetchOptions where
  optionsUIDs : Option (List String)
deriving DecidableEq, Repr

/-- The fetcher postprocessing: take the first product of the response (null
when there is none) and, when option UIDs were supplied, attach them to the
record under the optionUIDs field. -/
def fetchProductDataWithVideos (resp : GqlResponse) (options : FetchOptions) : Option Product :=
  match (resp.data.bind GqlData.products).bind List.head? with
  | none => none
  | some product =>
    match options.optionsUIDs with
    | some uids => some { product with optionUIDs := some uids }
    | none => some product

/-! ## Main image extractor (extractMainImageUrl) -/

/-- A JSON value, as produced by parsing the JSON-LD script content. -/
inductive JValue where
  | jnull
  | jbool (b : Bool)
  | jnum (n : Int)
  | jstr (s : String)
  | jarr (elems : List JValue)
  | jobj (fields : List (String × JValue))

/-- JS property access on a parsed JSON value: defined only on objects. -/
def jget : JValue → String → Option JValue
  | JValue.jobj fields, key => (fields.find? (fun kv => kv.fst == key)).map Prod.snd
  | _, _ => none

/-- JS truthiness of a JSON value. -/
def jsTruthy : JValue → Bool
  | JValue.jnull => false
  | JValue.jbool b => b
  | JValue.jnum n => decide (n ≠ 0)
  | JValue.jstr s => decide (s ≠ "")
  | JValue.jarr _ => true
  | JValue.jobj _ => true

/-- The page inputs the extractor reads. Modelled from the spec: the
metadata reader and the DOM query are external collaborators, so the
JSON-LD script content (none when no element or no text is present) and the
two metadata values are taken as inputs. -/
structure PageEnv where
  jsonLdText : Option String
  metaOgImage : Option String
  metaImage : Option String
deriving DecidableEq, Repr

/-- JS boolean-or chaining of two possibly missing strings, as used for the
metadata fallback: an empty string is falsy and falls through. -/
def jsOrOpt (a b : Option String) : Option String :=
  match a with
  | some s => if s = "" then b else some s
  | none => b

/-- The main-image extractor: trust the JSON-LD image field only when the
content is present, parses, declares type Product and the image value is
truthy; in every other case fall back to the og:image then image metadata.
The JSON parser is an external builtin and is passed as a parameter. -/
def extractMainImageUrl (parse : String → Option JValue) (env : PageEnv) : Option JValue :=
  let fallback := (jsOrOpt env.metaOgImage env.metaImage).map JValue.jstr
  match env.jsonLdText with
  | none => fallback
  | some text =>
    if text = "" then fallback
    else
      match parse text with
      | none => fallback
      | some j =>
        match jget j "@type", jget j "image" with
        | some (JValue.jstr t), some img =>
          if t == "Product" && jsTruthy img then some img else fallback
        | _, _ => fallback

/-! ## Image preload middleware (preloadImageMiddleware) -/

/-- The fixed preload image sizes of the script. -/
structure ImageSizes where
  width : Int
  height : Int
deriving DecidableEq, Repr

/-- The sizes constant of the script. -/
def IMAGES_SIZES : ImageSizes := { width := 960, height := 1191 }

/-- The JS replace of a leading http or https scheme by nothing. -/
def stripScheme (url : String) : String :=
  match url.toList with
  | 'h' :: 't' :: 't' :: 'p' :: 's' :: ':' :: rest => String.mk rest
  | 'h' :: 't' :: 't' :: 'p' :: ':' :: rest => String.mk rest
  | _ => url

/-- The observable effect of the middleware: either nothing, or one eager
render of the image component with the given source, sizes and a flag
recording whether the optimized-URL branch cleared the sizing parameters. -/
inductive PreloadEffect where
  | noop
  | render (src : String) (width height : Int) (paramsCleared : Bool)

/-- Whether the middleware effect is a render. -/
def PreloadEffect.isRender : PreloadEffect → Bool
  | PreloadEffect.render _ _ _ _ => true
  | PreloadEffect.noop => false

/-- The image-preload middleware: look at the first image entry, strip its
URL scheme, and when the result is non-empty eagerly render it (through the
optimized-URL rewrite when the feature flag is on, passed here as the
`optimize` parameter since it is an external library call); the product
data itself is always returned unchanged. -/
def preloadImageMiddleware (aemEnabled : Bool) (optimize : String → String → String)
    (data : Option Product) : Option Product × PreloadEffect :=
  match data with
  | none => (data, PreloadEffect.noop)
  | some p =>
    match p.images.bind List.head? with
    | none => (data, PreloadEffect.noop)
    | some img0 =>
      let image := stripScheme img0.url
      if image = "" then (data, PreloadEffect.noop)
      else
        let url := if aemEnabled then optimize image p.sku else image
        (data, PreloadEffect.render url IMAGES_SIZES.width IMAGES_SIZES.height aemEnabled)

/-! ## Top-level orchestrator -/

/-- The configuration handed to the framework mount call. -/
structure MountConfig where
  sku : String
  optionsUIDs : Option (List String)
  langDefinitions : List (String × String)
  initialData : Product
  modelTransformer : Option Product → Option Product
  acdl : Bool
  persistURLParams : Bool

/-- Terminal outcome of the orchestrator: the error-page redirect or the
framework mount with its configuration. -/
inductive Outcome where
  | errorPage
  | mount (cfg : MountConfig)

/-- The orchestrator branch of the script: fetch the product (with the
image-preload middleware chained on), redirect to the error page when it is
absent or its SKU is empty (falsy), and otherwise mount the framework with
the fetched product as initial data and the transformer attached. -/
def orchestrate (sku : String) (optionsUIDs : Option (List String))
    (resp : GqlResponse) (labels : List (String × String))
    (aemEnabled : Bool) (optimize : String → String → String) : Outcome :=
  let fetched := fetchProductDataWithVideos resp { optionsUIDs := optionsUIDs }
  let product := (preloadImageMiddleware aemEnabled optimize fetched).1
  match product with
  | none => Outcome.errorPage
  | some p =>
    if p.sku = "" then Outcome.errorPage
    else
      Outcome.mount
        { sku := sku
          optionsUIDs := optionsUIDs
          langDefinitions := labels
          initialData := p
          modelTransformer := transformer
          acdl := true
          persistURLParams := true }

/-! ## Concrete inputs used to exercise the theorems -/

/-- The video of the end-to-end scenario of the spec. -/
def demoVideo : Video :=
  { url := "https://vimeo.com/1156860195?share=copy", title := some "Demo", preview := none }

/-- The original image of the end-to-end scenario of the spec. -/
def demoImage : ImageRec :=
  { url := "http://x/a.jpg", label := none, width := none, height := none, isVideo := none }

/-- A product with one video and one image, as in the spec scenario. -/
def demoProduct : Product :=
  { sku := "ABC123", images := some [demoImage], videos := some [demoVideo]
    optionUIDs := none, otherFields := [("name", "Demo Product")] }

/-- A product with an empty videos field. -/
def noVideoProduct : Product :=
  { sku := "ABC123", images := some [demoImage], videos := some []
    optionUIDs := none, otherFields := [] }

/-- A GraphQL response holding the demo product. -/
def demoResponse : GqlResponse := { data := some { products := some [demoProduct] } }

/-- An image entry whose URL is the empty string. -/
def emptyUrlImage : ImageRec :=
  { url := "", label := none, width := none, height := none, isVideo := none }

/-- A product whose first image entry has an empty URL. -/
def emptyUrlProduct : Product :=
  { sku := "SKU1", images := some [emptyUrlImage], videos := none
    optionUIDs := none, otherFields := [] }

/-- The parsed JSON-LD object of the counterexample: type Product with an
empty (falsy) image field; this is what the browser JSON parser yields on
the text stored in `cxEnv`. -/
def cxJson : JValue :=
  JValue.jobj [("@type", JValue.jstr "Product"), ("image", JValue.jstr "")]

/-- A parser stub agreeing with the browser JSON parser on the one JSON-LD
text of the counterexample page. -/
def cxParse : String → Option JValue := fun _ => some cxJson

/-- The counterexample page: JSON-LD declaring a Product with an empty
image field, and an og:image metadata value present. -/
def cxEnv : PageEnv :=
  { jsonLdText := some "\x7b\"@type\":\"Product\",\"image\":\"\"\x7d"
    metaOgImage := some "http://meta/og.jpg", metaImage := none }

/-- The parsed JSON-LD object of the extractor witness: type Product with a
non-empty image field. -/
def wJson : JValue :=
  JValue.jobj [("@type", JValue.jstr "Product"), ("image", JValue.jstr "http://x/img.jpg")]

/-- A parser stub for the witness page. -/
def wParse : String → Option JValue := fun _ => some wJson

/-- The witness page: JSON-LD declaring a Product with an image field. -/
def wEnv : PageEnv :=
  { jsonLdText := some "\x7b\"@type\":\"Product\",\"image\":\"http://x/img.jpg\"\x7d"
    metaOgImage := some "http://meta/og.jpg", metaImage := some "http://meta/plain.jpg" }

/-! ## Helper lemmas -/

/-- Building a string from a character list and reading it back is the
identity. -/
theorem toList_mk (l : List Char) : (String.mk l).toList = l := rfl

/-- A span over a list every element of which satisfies the predicate takes
the whole list. -/
theorem spanP_all (p : Char → Bool) (l : List Char) (h : ∀ c ∈ l, p c = true) :
    spanP p l = (l, []) := by
  induction l with
  | nil => rfl
  | cons c cs ih =>
    have hc := h c (List.mem_cons_self c cs)
    simp [spanP, hc, ih fun d hd => h d (List.mem_cons_of_mem c hd)]

/-- Splitting a list that contains no separator yields the list itself as
the single chunk. -/
theorem splitCharNE_no_sep (sep : Char) (l : List Char)
    (h : ∀ c ∈ l, (c == sep) = false) : splitCharNE sep l = (l, []) := by
  induction l with
  | nil => rfl
  | cons c cs ih =>
    have hc := h c (List.mem_cons_self c cs)
    simp [splitCharNE, hc, ih fun d hd => h d (List.mem_cons_of_mem c hd)]

/-- A digit is not a slash. -/
theorem digit_ne_slash {c : Char} (h : c.isDigit = true) : (c == '/') = false := by
  cases hb : (c == '/') with
  | false => rfl
  | true =>
    have hc : c = '/' := eq_of_beq hb
    subst hc
    exact absurd h (by decide)

/-- A digit terminates neither a URL path nor a query. -/
theorem digit_not_pathEnd {c : Char} (h : c.isDigit = true) : isPathEnd c = false := by
  have h1 : (c == '?') = false := by
    cases hb : (c == '?') with
    | false => rfl
    | true =>
      have hc : c = '?' := eq_of_beq hb
      subst hc
      exact absurd h (by decide)
  have h2 : (c == '#') = false := by
    cases hb : (c == '#') with
    | false => rfl
    | true =>
      have hc : c = '#' := eq_of_beq hb
      subst hc
      exact absurd h (by decide)
  simp [isPathEnd, h1, h2]

/-- The canonical player URL parses to the expected scheme, host and
pathname for any digit suffix. -/
theorem parseURL_embed (vid : List Char) (hd : vid.all Char.isDigit = true) :
    parseURL ("https://player.vimeo.com/video/".toList ++ vid) =
      some ⟨"https".toList, "player.vimeo.com".toList, "/video/".toList ++ vid, []⟩ := by
  have hpath : spanP (fun c => !isPathEnd c) ("/video/".toList ++ vid) =
      ("/video/".toList ++ vid, []) := by
    apply spanP_all
    intro c hc
    rcases List.mem_append.mp hc with h1 | h2
    · fin_cases h1 <;> decide
    · have hcd : c.isDigit = true := List.all_eq_true.mp hd c h2
      simp [digit_not_pathEnd hcd]
  calc parseURL ("https://player.vimeo.com/video/".toList ++ vid)
      = some ⟨"https".toList, "player.vimeo.com".toList,
          if (spanP (fun c => !isPathEnd c) ("/video/".toList ++ vid)).1.isEmpty then ['/']
          else (spanP (fun c => !isPathEnd c) ("/video/".toList ++ vid)).1,
          (spanP (fun c => !isPathEnd c) ("/video/".toList ++ vid)).2⟩ := rfl
    _ = some ⟨"https".toList, "player.vimeo.com".toList, "/video/".toList ++ vid, []⟩ := by
        rw [hpath]
        rfl

/-- Normalizing a URL that is already of the canonical player form returns
it unchanged: its first non-empty path segment is the non-numeric video
literal. -/
theorem toVimeoEmbedUrl_embed_fixed (vid : List Char) (hd : vid.all Char.isDigit = true) :
    toVimeoEmbedUrl (String.mk ("https://player.vimeo.com/video/".toList ++ vid)) =
      String.mk ("https://player.vimeo.com/video/".toList ++ vid) := by
  have hvid : splitCharNE '/' vid = (vid, []) := by
    apply splitCharNE_no_sep
    intro c hc
    exact digit_ne_slash (List.all_eq_true.mp hd c hc)
  have hs1 : splitCharNE '/' ("/video/".toList ++ vid) =
      ([], ['v', 'i', 'd', 'e', 'o'] :: (splitCharNE '/' vid).1 :: (splitCharNE '/' vid).2) := rfl
  have hsplit : splitChar '/' ("/video/".toList ++ vid) = [[], ['v', 'i', 'd', 'e', 'o'], vid] := by
    unfold splitChar
    rw [hs1, hvid]
  unfold toVimeoEmbedUrl
  rw [toList_mk, parseURL_embed vid hd]
  simp only [hsplit, List.filter, List.head?]
  rfl

/-- Unfolding equation of the normalizer at a parse failure. -/
theorem toVimeoEmbedUrl_eq_of_parse_none (u : String)
    (hp : parseURL u.toList = none) : toVimeoEmbedUrl u = u := by
  unfold toVimeoEmbedUrl
  rw [hp]

/-- Unfolding equation of the normalizer at a parsed URL all of whose path
segments are empty. -/
theorem toVimeoEmbedUrl_eq_of_no_segment (u : String) (r : URLRec)
    (hp : parseURL u.toList = some r)
    (hh : ((splitChar '/' r.pathname).filter (fun s => !s.isEmpty)).head? = none) :
    toVimeoEmbedUrl u = u := by
  unfold toVimeoEmbedUrl
  rw [hp]
  show (match ((splitChar '/' r.pathname).filter (fun s => !s.isEmpty)).head? with
    | some videoId =>
      if !videoId.isEmpty && videoId.all Char.isDigit then
        String.mk ("https://player.vimeo.com/video/".toList ++ videoId)
      else u
    | none => u) = u
  rw [hh]

/-- Unfolding equation of the normalizer at a successfully parsed URL with
a first non-empty path segment. -/
theorem toVimeoEmbedUrl_eq_of (u : String) (r : URLRec) (vid : List Char)
    (hp : parseURL u.toList = some r)
    (hh : ((splitChar '/' r.pathname).filter (fun s => !s.isEmpty)).head? = some vid) :
    toVimeoEmbedUrl u =
      if !vid.isEmpty && vid.all Char.isDigit then
        String.mk ("https://player.vimeo.com/video/".toList ++ vid)
      else u := by
  unfold toVimeoEmbedUrl
  rw [hp]
  show (match ((splitChar '/' r.pathname).filter (fun s => !s.isEmpty)).head? with
    | some videoId =>
      if !videoId.isEmpty && videoId.all Char.isDigit then
        String.mk ("https://player.vimeo.com/video/".toList ++ videoId)
      else u
    | none => u) = _
  rw [hh]

/-- Case analysis of the normalizer output: either the input unchanged, or
the canonical player URL built from a non-empty digit run. -/
theorem toVimeoEmbedUrl_cases (u : String) :
    toVimeoEmbedUrl u = u ∨ ∃ vid, vid ≠ [] ∧ vid.all Char.isDigit = true ∧
      toVimeoEmbedUrl u = String.mk ("https://player.vimeo.com/video/".toList ++ vid) := by
  rcases hp : parseURL u.toList with _ | r
  · exact Or.inl (toVimeoEmbedUrl_eq_of_parse_none u hp)
  · rcases hh : ((splitChar '/' r.pathname).filter (fun s => !s.isEmpty)).head? with _ | vid
    · exact Or.inl (toVimeoEmbedUrl_eq_of_no_segment u r hp hh)
    · have he := toVimeoEmbedUrl_eq_of u r vid hp hh
      by_cases hb : (!vid.isEmpty && vid.all Char.isDigit) = true
      · rw [if_pos hb] at he
        refine Or.inr ⟨vid, ?_, ((Bool.and_eq_true _ _).mp hb).2, he⟩
        have h1 := ((Bool.and_eq_true _ _).mp hb).1
        intro hnil
        subst hnil
        simp at h1
      · rw [if_neg hb] at he
        exact Or.inl he

/-! ## Claim theorems: Vimeo URL normalizer -/

/-- C2: for every input string, if it parses as a URL and the first
non-empty path segment is a non-empty run of digits, the normalizer returns
exactly the canonical player URL built from that segment; for every other
input, strings that fail to parse included, it returns the input
unchanged. -/
theorem toVimeoEmbedUrl_numeric_segment_spec (u : String) :
    (∀ r vid, parseURL u.toList = some r →
      ((splitChar '/' r.pathname).filter (fun s => !s.isEmpty)).head? = some vid →
      vid ≠ [] → vid.all Char.isDigit = true →
      toVimeoEmbedUrl u = String.mk ("https://player.vimeo.com/video/".toList ++ vid)) ∧
    ((¬ ∃ r vid, parseURL u.toList = some r ∧
      ((splitChar '/' r.pathname).filter (fun s => !s.isEmpty)).head? = some vid ∧
      vid ≠ [] ∧ vid.all Char.isDigit = true) →
      toVimeoEmbedUrl u = u) := by
  constructor
  · intro r vid hp hh hne hdig
    have he := toVimeoEmbedUrl_eq_of u r vid hp hh
    have hb : (!vid.isEmpty && vid.all Char.isDigit) = true := by
      refine (Bool.and_eq_true _ _).mpr ⟨?_, hdig⟩
      cases vid with
      | nil => exact absurd rfl hne
      | cons c cs => rfl
    rw [if_pos hb] at he
    exact he
  · intro hnot
    rcases hp : parseURL u.toList with _ | r
    · exact toVimeoEmbedUrl_eq_of_parse_none u hp
    · rcases hh : ((splitChar '/' r.pathname).filter (fun s => !s.isEmpty)).head? with _ | vid
      · exact toVimeoEmbedUrl_eq_of_no_segment u r hp hh
      · have he := toVimeoEmbedUrl_eq_of u r vid hp hh
        by_cases hb : (!vid.isEmpty && vid.all Char.isDigit) = true
        · exfalso
          apply hnot
          refine ⟨r, vid, hp, hh, ?_, ((Bool.and_eq_true _ _).mp hb).2⟩
          have h1 := ((Bool.and_eq_true _ _).mp hb).1
          intro hnil
          subst hnil
          simp at h1
        · rw [if_neg hb] at he
          exact he

/-- C2 witness: the spec scenario URL normalizes to the canonical player
URL. -/
theorem toVimeoEmbedUrl_numeric_segment_spec_witness :
    toVimeoEmbedUrl "https://vimeo.com/1156860195?share=copy" =
      "https://player.vimeo.com/video/1156860195" := by
  have h := (toVimeoEmbedUrl_numeric_segment_spec "https://vimeo.com/1156860195?share=copy").1
    ⟨"https".toList, "vimeo.com".toList, "/1156860195".toList, "?share=copy".toList⟩
    "1156860195".toList (by decide) (by decide) (by decide) (by decide)
  exact h.trans (by decide)

/-- C8: the normalizer never throws: the catch branch turns a parse failure
into returning the original string, and in general the result is always a
string, namely the input itself or a canonical player URL. -/
theorem toVimeoEmbedUrl_never_throws (u : String) :
    (parseURL u.toList = none → toVimeoEmbedUrl u = u) ∧
    (toVimeoEmbedUrl u = u ∨ ∃ vid, vid ≠ [] ∧ vid.all Char.isDigit = true ∧
      toVimeoEmbedUrl u = String.mk ("https://player.vimeo.com/video/".toList ++ vid)) :=
  ⟨toVimeoEmbedUrl_eq_of_parse_none u, toVimeoEmbedUrl_cases u⟩

/-- C8 witness: a malformed URL string is returned unchanged. -/
theorem toVimeoEmbedUrl_never_throws_witness :
    toVimeoEmbedUrl "not a url" = "not a url" :=
  (toVimeoEmbedUrl_never_throws "not a url").1 (by decide)

/-- C10: the normalizer is idempotent, and in particular a URL already of
the embeddable player form is returned unchanged, because its first
non-empty path segment is the non-numeric video literal. -/
theorem toVimeoEmbedUrl_idempotent (u : String) :
    toVimeoEmbedUrl (toVimeoEmbedUrl u) = toVimeoEmbedUrl u ∧
    (∀ vid, vid.all Char.isDigit = true →
      toVimeoEmbedUrl (String.mk ("https://player.vimeo.com/video/".toList ++ vid)) =
        String.mk ("https://player.vimeo.com/video/".toList ++ vid)) := by
  constructor
  · rcases toVimeoEmbedUrl_cases u with h | ⟨vid, hne, hdig, h⟩
    · rw [h]
      exact h
    · rw [h]
      exact toVimeoEmbedUrl_embed_fixed vid hdig
  · intro vid hdig
    exact toVimeoEmbedUrl_embed_fixed vid hdig

/-- C10 witness: normalizing twice agrees with normalizing once on the spec
scenario URL, and the canonical player URL is a fixed point. -/
theorem toVimeoEmbedUrl_idempotent_witness :
    toVimeoEmbedUrl (toVimeoEmbedUrl "https://vimeo.com/1156860195?share=copy") =
      toVimeoEmbedUrl "https://vimeo.com/1156860195?share=copy" ∧
    toVimeoEmbedUrl "https://player.vimeo.com/video/1156860195" =
      "https://player.vimeo.com/video/1156860195" := by
  refine ⟨(toVimeoEmbedUrl_idempotent "https://vimeo.com/1156860195?share=copy").1, ?_⟩
  have h := (toVimeoEmbedUrl_idempotent "x").2 "1156860195".toList (by decide)
  have e : String.mk ("https://player.vimeo.com/video/".toList ++ "1156860195".toList) =
      "https://player.vimeo.com/video/1156860195" := by decide
  rw [e] at h
  exact h

/-! ## Claim theorems: ProductDetails transformer -/

/-- C1: for a product with at least one video, the transformed images
sequence is the video-derived entries, in source video order and each of
the documented shape (normalized embed URL, title or the default label,
640 by 360, isVideo marker), followed by the original images unchanged and
in order; its length is the sum of the two counts. -/
theorem transformer_video_image_projection (p : Product) (vs : List Video)
    (hv : p.videos = some vs) (hne : vs ≠ []) :
    ∃ q, transformer (some p) = some q ∧
      q.images = some (vs.map (fun v =>
        { url := toVimeoEmbedUrl v.url
          label := some (jsOrDefault v.title "Product Video")
          width := some 640
          height := some 360
          isVideo := some true }) ++ p.images.getD []) ∧
      (q.images.getD []).length = vs.length + (p.images.getD []).length ∧
      (q.images.getD []).take vs.length = vs.map videoAsImage ∧
      (q.images.getD []).drop vs.length = p.images.getD [] := by
  cases vs with
  | nil => exact absurd rfl hne
  | cons v vtl =>
    have hs : transformer (some p) = (match p.videos with
        | none => some p
        | some [] => some p
        | some vs =>
          some { p with
            videos := some (vs.map transformVideoEntry)
            images := some (vs.map videoAsImage ++ p.images.getD []) }) := rfl
    have ht : transformer (some p) = some { p with
        videos := some ((v :: vtl).map transformVideoEntry)
        images := some ((v :: vtl).map videoAsImage ++ p.images.getD []) } := by
      rw [hs, hv]
    refine ⟨_, ht, rfl, ?_, ?_, ?_⟩
    · simp [List.length_append, List.length_map]
      omega
    · have hl : (v :: vtl).length = ((v :: vtl).map videoAsImage).length :=
        (List.length_map _ _).symm
      rw [Option.getD_some, hl, List.take_left]
    · have hl : (v :: vtl).length = ((v :: vtl).map videoAsImage).length :=
        (List.length_map _ _).symm
      rw [Option.getD_some, hl, List.drop_left]

/-- C1 witness: the spec scenario product with one video and one image maps
to the expected two-image gallery, the derived entry first. -/
theorem transformer_video_image_projection_witness :
    (∃ q, transformer (some demoProduct) = some q ∧
      q.images = some ([demoVideo].map (fun v =>
        { url := toVimeoEmbedUrl v.url
          label := some (jsOrDefault v.title "Product Video")
          width := some 640
          height := some 360
          isVideo := some true }) ++ demoProduct.images.getD []) ∧
      (q.images.getD []).length = [demoVideo].length + (demoProduct.images.getD []).length ∧
      (q.images.getD []).take [demoVideo].length = [demoVideo].map videoAsImage ∧
      (q.images.getD []).drop [demoVideo].length = demoProduct.images.getD []) ∧
    transformer (some demoProduct) = some { demoProduct with
      videos := some [{ url := "https://player.vimeo.com/video/1156860195"
                        title := some "Demo", preview := none }]
      images := some [{ url := "https://player.vimeo.com/video/1156860195"
                        label := some "Demo", width := some 640, height := some 360
                        isVideo := some true }, demoImage] } :=
  ⟨transformer_video_image_projection demoProduct [demoVideo] rfl (by decide), by decide⟩

/-- C3: a product whose videos field is absent or empty passes through the
transformer unchanged. -/
theorem transformer_passthrough_without_videos (p : Product)
    (h : p.videos = none ∨ p.videos = some []) :
    transformer (some p) = some p := by
  have hs : transformer (some p) = (match p.videos with
      | none => some p
      | some [] => some p
      | some vs =>
        some { p with
          videos := some (vs.map transformVideoEntry)
          images := some (vs.map videoAsImage ++ p.images.getD []) }) := rfl
  rcases h with h | h
  · rw [hs, h]
  · rw [hs, h]

/-- C3 witness: the demo product with an empty videos list is returned as
is. -/
theorem transformer_passthrough_without_videos_witness :
    transformer (some noVideoProduct) = some noVideoProduct :=
  transformer_passthrough_without_videos noVideoProduct (Or.inr rfl)

/-- C7: for a product with at least one video, every field other than
images and videos is carried through the transformer unchanged. -/
theorem transformer_preserves_other_fields (p : Product) (vs : List Video)
    (hv : p.videos = some vs) (hne : vs ≠ []) :
    ∃ q, transformer (some p) = some q ∧ q.sku = p.sku ∧
      q.optionUIDs = p.optionUIDs ∧ q.otherFields = p.otherFields := by
  cases vs with
  | nil => exact absurd rfl hne
  | cons v vtl =>
    have hs : transformer (some p) = (match p.videos with
        | none => some p
        | some [] => some p
        | some vs =>
          some { p with
            videos := some (vs.map transformVideoEntry)
            images := some (vs.map videoAsImage ++ p.images.getD []) }) := rfl
    have ht : transformer (some p) = some { p with
        videos := some ((v :: vtl).map transformVideoEntry)
        images := some ((v :: vtl).map videoAsImage ++ p.images.getD []) } := by
      rw [hs, hv]
    exact ⟨_, ht, rfl, rfl, rfl⟩

/-- C7 witness: the demo product keeps its SKU, option UIDs and remaining
fields across the transform. -/
theorem transformer_preserves_other_fields_witness :
    ∃ q, transformer (some demoProduct) = some q ∧ q.sku = demoProduct.sku ∧
      q.optionUIDs = demoProduct.optionUIDs ∧ q.otherFields = demoProduct.otherFields :=
  transformer_preserves_other_fields demoProduct [demoVideo] rfl (by decide)

/-! ## Claim theorems: product fetcher -/

/-- C6: the fetcher returns the first product of the response, or none when
the response has no product; supplied option UIDs are attached under the
optionUIDs field, and without them the record is returned untouched. -/
theorem fetchProductDataWithVideos_first_or_null (resp : GqlResponse) (opts : FetchOptions) :
    ((resp.data.bind GqlData.products).bind List.head? = none →
      fetchProductDataWithVideos resp opts = none) ∧
    (∀ p, (resp.data.bind GqlData.products).bind List.head? = some p →
      (∀ uids, opts.optionsUIDs = some uids →
        fetchProductDataWithVideos resp opts = some { p with optionUIDs := some uids }) ∧
      (opts.optionsUIDs = none → fetchProductDataWithVideos resp opts = some p)) := by
  have hs : fetchProductDataWithVideos resp opts =
      (match (resp.data.bind GqlData.products).bind List.head? with
       | none => none
       | some product =>
         match opts.optionsUIDs with
         | some uids => some { product with optionUIDs := some uids }
         | none => some product) := rfl
  constructor
  · intro h
    rw [hs, h]
  · intro p hp
    constructor
    · intro uids hu
      rw [hs, hp, hu]
    · intro hu
      rw [hs, hp, hu]

/-- C6 witness: the demo response yields the demo product, with supplied
option UIDs attached. -/
theorem fetchProductDataWithVideos_first_or_null_witness :
    fetchProductDataWithVideos demoResponse { optionsUIDs := some ["uid1"] } =
      some { demoProduct with optionUIDs := some ["uid1"] } :=
  ((fetchProductDataWithVideos_first_or_null demoResponse
      { optionsUIDs := some ["uid1"] }).2 demoProduct rfl).1 ["uid1"] rfl

/-! ## Claim theorems: image preload middleware -/

/-- Unfolding equation of the middleware on present data. -/
theorem preloadImageMiddleware_some_eq (aem : Bool) (optimize : String → String → String)
    (p : Product) :
    preloadImageMiddleware aem optimize (some p) =
      (match p.images.bind List.head? with
       | none => (some p, PreloadEffect.noop)
       | some img0 =>
         if stripScheme img0.url = "" then (some p, PreloadEffect.noop)
         else
           (some p, PreloadEffect.render
             (if aem then optimize (stripScheme img0.url) p.sku else stripScheme img0.url)
             IMAGES_SIZES.width IMAGES_SIZES.height aem)) := rfl

/-- Unfolding equation of the middleware at a present first image entry. -/
theorem preloadImageMiddleware_img_eq (aem : Bool) (optimize : String → String → String)
    (p : Product) (img0 : ImageRec) (h : p.images.bind List.head? = some img0) :
    preloadImageMiddleware aem optimize (some p) =
      (if stripScheme img0.url = "" then ((some p : Option Product), PreloadEffect.noop)
       else
         (some p, PreloadEffect.render
           (if aem then optimize (stripScheme img0.url) p.sku else stripScheme img0.url)
           IMAGES_SIZES.width IMAGES_SIZES.height aem)) := by
  rw [preloadImageMiddleware_some_eq, h]

/-- The middleware always returns its data component unchanged. -/
theorem preloadImageMiddleware_fst (aem : Bool) (optimize : String → String → String)
    (data : Option Product) : (preloadImageMiddleware aem optimize data).1 = data := by
  rcases data with _ | p
  · rfl
  · rcases h : p.images.bind List.head? with _ | img0
    · rw [preloadImageMiddleware_some_eq, h]
    · rw [preloadImageMiddleware_img_eq aem optimize p img0 h]
      by_cases hi : stripScheme img0.url = ""
      · rw [if_pos hi]
      · rw [if_neg hi]

/-- C9 (amended): the middleware returns its input unchanged for every
input; it renders eagerly exactly when the first image entry is present
with a non-empty URL after scheme stripping, and is a no-op otherwise. -/
theorem preloadImageMiddleware_returns_input (aem : Bool)
    (optimize : String → String → String) (data : Option Product) :
    (preloadImageMiddleware aem optimize data).1 = data ∧
    ((data = none ∨ (∃ p, data = some p ∧ p.images.bind List.head? = none) ∨
      (∃ p img0, data = some p ∧ p.images.bind List.head? = some img0 ∧
        stripScheme img0.url = "")) →
      (preloadImageMiddleware aem optimize data).2 = PreloadEffect.noop) ∧
    (∀ p img0, data = some p → p.images.bind List.head? = some img0 →
      stripScheme img0.url ≠ "" →
      (preloadImageMiddleware aem optimize data).2 = PreloadEffect.render
        (if aem then optimize (stripScheme img0.url) p.sku else stripScheme img0.url)
        IMAGES_SIZES.width IMAGES_SIZES.height aem) := by
  refine ⟨preloadImageMiddleware_fst aem optimize data, ?_, ?_⟩
  · rintro (rfl | ⟨p, rfl, h⟩ | ⟨p, img0, rfl, h, hi⟩)
    · rfl
    · rw [preloadImageMiddleware_some_eq, h]
    · rw [preloadImageMiddleware_img_eq aem optimize p img0 h, if_pos hi]
  · rintro p img0 rfl h hi
    rw [preloadImageMiddleware_img_eq aem optimize p img0 h, if_neg hi]

/-- C9 witness: on the demo product the middleware keeps the data and
renders the stripped first image URL eagerly. -/
theorem preloadImageMiddleware_returns_input_witness :
    (preloadImageMiddleware false (fun s _ => s) (some demoProduct)).1 = some demoProduct ∧
    (preloadImageMiddleware false (fun s _ => s) (some demoProduct)).2 = PreloadEffect.render
      (if false then (fun s _ => s) (stripScheme demoImage.url) demoProduct.sku
       else stripScheme demoImage.url)
      IMAGES_SIZES.width IMAGES_SIZES.height false :=
  ⟨(preloadImageMiddleware_returns_input false (fun s _ => s) (some demoProduct)).1,
   (preloadImageMiddleware_returns_input false (fun s _ => s) (some demoProduct)).2.2
     demoProduct demoImage rfl rfl (by decide)⟩

/-- C9 counterexample: a product whose first image entry is present but has
an empty URL: the middleware still returns the data unchanged, yet performs
no render, although the claim as stated promises a render side effect
whenever the first image entry is present. -/
theorem preloadImageMiddleware_empty_url_cx :
    emptyUrlProduct.images.bind List.head? = some emptyUrlImage ∧
    (preloadImageMiddleware false (fun s _ => s) (some emptyUrlProduct)).1 =
      some emptyUrlProduct ∧
    ((preloadImageMiddleware false (fun s _ => s) (some emptyUrlProduct)).2).isRender = false :=
  ⟨rfl, rfl, rfl⟩

/-! ## Claim theorems: top-level orchestrator -/

/-- Unfolding of the orchestrator: since the middleware passes the data
through, the branch is decided by the fetched product alone. -/
theorem orchestrate_eq (sku : String) (optionsUIDs : Option (List String))
    (resp : GqlResponse) (labels : List (String × String)) (aem : Bool)
    (optimize : String → String → String) :
    orchestrate sku optionsUIDs resp labels aem optimize =
      (match fetchProductDataWithVideos resp { optionsUIDs := optionsUIDs } with
       | none => Outcome.errorPage
       | some p =>
         if p.sku = "" then Outcome.errorPage
         else
           Outcome.mount
             { sku := sku
               optionsUIDs := optionsUIDs
               langDefinitions := labels
               initialData := p
               modelTransformer := transformer
               acdl := true
               persistURLParams := true }) := by
  have hs : orchestrate sku optionsUIDs resp labels aem optimize =
      (match (preloadImageMiddleware aem optimize
          (fetchProductDataWithVideos resp { optionsUIDs := optionsUIDs })).1 with
       | none => Outcome.errorPage
       | some p =>
         if p.sku = "" then Outcome.errorPage
         else
           Outcome.mount
             { sku := sku
               optionsUIDs := optionsUIDs
               langDefinitions := labels
               initialData := p
               modelTransformer := transformer
               acdl := true
               persistURLParams := true }) := rfl
  rw [hs, preloadImageMiddleware_fst]

/-- C4: when the fetched product is absent or has an empty SKU the
orchestrator redirects to the error page and never mounts; when it is
present with a non-empty SKU the orchestrator mounts with that product as
initial data and does not redirect. -/
theorem orchestrate_mount_or_error (sku : String) (optionsUIDs : Option (List String))
    (resp : GqlResponse) (labels : List (String × String)) (aem : Bool)
    (optimize : String → String → String) :
    ((fetchProductDataWithVideos resp { optionsUIDs := optionsUIDs } = none ∨
      (∃ p, fetchProductDataWithVideos resp { optionsUIDs := optionsUIDs } = some p ∧
        p.sku = "")) →
      orchestrate sku optionsUIDs resp labels aem optimize = Outcome.errorPage ∧
      ∀ cfg, orchestrate sku optionsUIDs resp labels aem optimize ≠ Outcome.mount cfg) ∧
    (∀ p, fetchProductDataWithVideos resp { optionsUIDs := optionsUIDs } = some p →
      p.sku ≠ "" →
      orchestrate sku optionsUIDs resp labels aem optimize = Outcome.mount
        { sku := sku
          optionsUIDs := optionsUIDs
          langDefinitions := labels
          initialData := p
          modelTransformer := transformer
          acdl := true
          persistURLParams := true } ∧
      orchestrate sku optionsUIDs resp labels aem optimize ≠ Outcome.errorPage) := by
  constructor
  · rintro (h | ⟨p, h, hsku⟩)
    · have he : orchestrate sku optionsUIDs resp labels aem optimize = Outcome.errorPage := by
        rw [orchestrate_eq, h]
      exact ⟨he, fun cfg hcon => Outcome.noConfusion (he.symm.trans hcon)⟩
    · have he : orchestrate sku optionsUIDs resp labels aem optimize = Outcome.errorPage := by
        rw [orchestrate_eq, h]
        show (if p.sku = "" then Outcome.errorPage else _) = Outcome.errorPage
        rw [if_pos hsku]
      exact ⟨he, fun cfg hcon => Outcome.noConfusion (he.symm.trans hcon)⟩
  · intro p h hsku
    have hm : orchestrate sku optionsUIDs resp labels aem optimize = Outcome.mount
        { sku := sku
          optionsUIDs := optionsUIDs
          langDefinitions := labels
          initialData := p
          modelTransformer := transformer
          acdl := true
          persistURLParams := true } := by
      rw [orchestrate_eq, h]
      show (if p.sku = "" then Outcome.errorPage else _) = _
      rw [if_neg hsku]
    exact ⟨hm, fun hcon => Outcome.noConfusion (hm.symm.trans hcon)⟩

/-- C4 witness: the demo response mounts with the demo product as initial
data and the page SKU from the URL. -/
theorem orchestrate_mount_or_error_witness :
    orchestrate "ABC123" none demoResponse [("key", "value")] false (fun s _ => s) =
      Outcome.mount
        { sku := "ABC123"
          optionsUIDs := none
          langDefinitions := [("key", "value")]
          initialData := demoProduct
          modelTransformer := transformer
          acdl := true
          persistURLParams := true } :=
  ((orchestrate_mount_or_error "ABC123" none demoResponse [("key", "value")] false
      (fun s _ => s)).2 demoProduct rfl (by decide)).1

/-! ## Claim theorems: main image extractor -/

/-- Unfolding equation of the extractor when a JSON-LD text is present. -/
theorem extractMainImageUrl_some_eq (parse : String → Option JValue) (env : PageEnv)
    (text : String) (h : env.jsonLdText = some text) :
    extractMainImageUrl parse env =
      (if text = "" then (jsOrOpt env.metaOgImage env.metaImage).map JValue.jstr
       else
         match parse text with
         | none => (jsOrOpt env.metaOgImage env.metaImage).map JValue.jstr
         | some j =>
           match jget j "@type", jget j "image" with
           | some (JValue.jstr t), some img =>
             if t == "Product" && jsTruthy img then some img
             else (jsOrOpt env.metaOgImage env.metaImage).map JValue.jstr
           | _, _ => (jsOrOpt env.metaOgImage env.metaImage).map JValue.jstr) := by
  have hs : extractMainImageUrl parse env =
      (match env.jsonLdText with
       | none => (jsOrOpt env.metaOgImage env.metaImage).map JValue.jstr
       | some text =>
         if text = "" then (jsOrOpt env.metaOgImage env.metaImage).map JValue.jstr
         else
           match parse text with
           | none => (jsOrOpt env.metaOgImage env.metaImage).map JValue.jstr
           | some j =>
             match jget j "@type", jget j "image" with
             | some (JValue.jstr t), some img =>
               if t == "Product" && jsTruthy img then some img
               else (jsOrOpt env.metaOgImage env.metaImage).map JValue.jstr
             | _, _ => (jsOrOpt env.metaOgImage env.metaImage).map JValue.jstr) := rfl
  rw [hs, h]

/-- Unfolding equation of the extractor once the JSON-LD text parsed. -/
theorem extractMainImageUrl_parsed_eq (parse : String → Option JValue) (env : PageEnv)
    (text : String) (j : JValue) (h1 : env.jsonLdText = some text) (h2 : text ≠ "")
    (h3 : parse text = some j) :
    extractMainImageUrl parse env =
      (match jget j "@type", jget j "image" with
       | some (JValue.jstr t), some img =>
         if t == "Product" && jsTruthy img then some img
         else (jsOrOpt env.metaOgImage env.metaImage).map JValue.jstr
       | _, _ => (jsOrOpt env.metaOgImage env.metaImage).map JValue.jstr) := by
  rw [extractMainImageUrl_some_eq parse env text h1, if_neg h2, h3]

/-- The two-scrutinee match of the extractor yields the fallback whenever
the JSON object does not declare type Product with a truthy image. -/
theorem extract_match_fallback (j : JValue) (fb : Option JValue)
    (hnot : ¬(jget j "@type" = some (JValue.jstr "Product") ∧
      ∃ img, jget j "image" = some img ∧ jsTruthy img = true)) :
    (match jget j "@type", jget j "image" with
     | some (JValue.jstr t), some img =>
       if t == "Product" && jsTruthy img then some img else fb
     | _, _ => fb) = fb := by
  rcases hA : jget j "@type" with _ | w
  · rfl
  · rcases hB : jget j "image" with _ | img
    · cases w <;> rfl
    · cases w with
      | jstr t =>
        by_cases hc : (t == "Product" && jsTruthy img) = true
        · exfalso
          apply hnot
          have ht : t = "Product" := eq_of_beq ((Bool.and_eq_true _ _).mp hc).1
          subst ht
          exact ⟨hA, img, hB, ((Bool.and_eq_true _ _).mp hc).2⟩
        · show (if (t == "Product" && jsTruthy img) = true then some img else fb) = fb
          exact if_neg hc
      | jnull => rfl
      | jbool b => rfl
      | jnum n => rfl
      | jarr es => rfl
      | jobj fs => rfl

/-- Unfolding equation of the extractor without a JSON-LD text. -/
theorem extractMainImageUrl_none_eq (parse : String → Option JValue) (env : PageEnv)
    (h : env.jsonLdText = none) :
    extractMainImageUrl parse env =
      (jsOrOpt env.metaOgImage env.metaImage).map JValue.jstr := by
  have hs : extractMainImageUrl parse env =
      (match env.jsonLdText with
       | none => (jsOrOpt env.metaOgImage env.metaImage).map JValue.jstr
       | some text =>
         if text = "" then (jsOrOpt env.metaOgImage env.metaImage).map JValue.jstr
         else
           match parse text with
           | none => (jsOrOpt env.metaOgImage env.metaImage).map JValue.jstr
           | some j =>
             match jget j "@type", jget j "image" with
             | some (JValue.jstr t), some img =>
               if t == "Product" && jsTruthy img then some img
               else (jsOrOpt env.metaOgImage env.metaImage).map JValue.jstr
             | _, _ => (jsOrOpt env.metaOgImage env.metaImage).map JValue.jstr) := rfl
  rw [hs, h]

/-- C5 (amended): the extractor returns the JSON-LD image value exactly
when the JSON-LD content is present and non-empty, parses, declares type
Product and carries a truthy (in particular non-empty) image value; in
every other case, a present but falsy image field included, it returns the
og:image metadata if truthy, else the image metadata, else nothing. -/
theorem extractMainImageUrl_truthy_image_spec (parse : String → Option JValue)
    (env : PageEnv) :
    (∀ text j img, env.jsonLdText = some text → text ≠ "" → parse text = some j →
      jget j "@type" = some (JValue.jstr "Product") → jget j "image" = some img →
      jsTruthy img = true → extractMainImageUrl parse env = some img) ∧
    ((env.jsonLdText = none ∨ env.jsonLdText = some "" ∨
      (∃ text, env.jsonLdText = some text ∧ text ≠ "" ∧
        (parse text = none ∨ (∃ j, parse text = some j ∧
          (jget j "@type" = none ∨
           (∃ w, jget j "@type" = some w ∧ w ≠ JValue.jstr "Product") ∨
           jget j "image" = none ∨
           (∃ img, jget j "image" = some img ∧ jsTruthy img = false)))))) →
      extractMainImageUrl parse env =
        (jsOrOpt env.metaOgImage env.metaImage).map JValue.jstr) := by
  constructor
  · intro text j img h1 h2 h3 h4 h5 h6
    rw [extractMainImageUrl_parsed_eq parse env text j h1 h2 h3, h4, h5]
    show (if ("Product" == "Product" && jsTruthy img) = true then some img else _) = some img
    have hc : ("Product" == "Product" && jsTruthy img) = true := by
      rw [h6]
      simp
    exact if_pos hc
  · rintro (h | h | ⟨text, h1, h2, hp | ⟨j, hp, hj⟩⟩)
    · exact extractMainImageUrl_none_eq parse env h
    · rw [extractMainImageUrl_some_eq parse env "" h, if_pos rfl]
    · rw [extractMainImageUrl_some_eq parse env text h1, if_neg h2, hp]
    · rw [extractMainImageUrl_parsed_eq parse env text j h1 h2 hp]
      apply extract_match_fallback
      rintro ⟨hA', img', hB', htr'⟩
      rcases hj with hA | ⟨w, hw, hwne⟩ | hB | ⟨img, hBi, hf⟩
      · rw [hA] at hA'
        exact Option.noConfusion hA'
      · rw [hw] at hA'
        exact hwne (Option.some.inj hA')
      · rw [hB] at hB'
        exact Option.noConfusion hB'
      · rw [hBi] at hB'
        cases Option.some.inj hB'
        rw [hf] at htr'
        exact Bool.noConfusion htr'

/-- C5 witness: on a page whose JSON-LD declares a Product with a non-empty
image value, the extractor returns that value. -/
theorem extractMainImageUrl_truthy_image_spec_witness :
    extractMainImageUrl wParse wEnv = some (JValue.jstr "http://x/img.jpg") :=
  (extractMainImageUrl_truthy_image_spec wParse wEnv).1
    "\x7b\"@type\":\"Product\",\"image\":\"http://x/img.jpg\"\x7d" wJson
    (JValue.jstr "http://x/img.jpg") rfl (by decide) rfl rfl rfl (by decide)

/-- C5 counterexample: JSON-LD declaring type Product with an image field
holding the empty string: the field is present, yet the extractor falls
back to the og:image metadata instead of returning the JSON-LD image
value, refuting the claim as stated. -/
theorem extractMainImageUrl_falsy_image_cx :
    cxParse "\x7b\"@type\":\"Product\",\"image\":\"\"\x7d" = some cxJson ∧
    jget cxJson "@type" = some (JValue.jstr "Product") ∧
    jget cxJson "image" = some (JValue.jstr "") ∧
    extractMainImageUrl cxParse cxEnv = some (JValue.jstr "http://meta/og.jpg") ∧
    extractMainImageUrl cxParse cxEnv ≠ some (JValue.jstr "") := by
  refine ⟨rfl, rfl, rfl, rfl, ?_⟩
  intro hcon
  have h1 : extractMainImageUrl cxParse cxEnv = some (JValue.jstr "http://meta/og.jpg") := rfl
  have h2 := Option.some.inj (h1.symm.trans hcon)
  injection h2 with h3
  exact absurd h3 (by decide)
